import Mathlib

/-!
Verification of the DNA matching engine in `src/app/application.py`.

The program's core is a pairwise global-alignment scorer
(`needleman_wunsch_similarity`, built on `Bio.pairwise2.align.globalms` with
equal gap-open and gap-extend penalties, i.e. a linear gap penalty) and two
threshold-driven search routines over a population list: `identify`
(route `/identify`) and the missing-person search with relatives
(route `/missing`).

Modelling conventions:
- sequences are `List Char`; Python floats are idealised as `ℚ` (every
  similarity is a ratio of integers);
- Python's `round` (banker's rounding, ties to even) is `pyRound`;
- a population record keeps exactly the fields the engine reads
  (`status`, `national_id`, `DNA_sequence`) plus `name` to tell records
  apart; the `info_keys` projection that builds `match_info` dictionaries
  is modelled as the identity on this record type, since it only drops
  fields the engine never branches on;
- `Bio.pairwise2.align.globalms` returns the empty alignment list exactly
  when one of the two sequences is empty (`_align` starts with
  `if not sequenceA or not sequenceB: return []`); with both gap penalties
  equal its best score is the Needleman-Wunsch optimum with linear gap
  penalty, computed here by the row-iterated dynamic program
  `globalms_score`.
-/

/-- Substitution score of two characters: `match_score` on equality,
`mismatch_penalty` otherwise. -/
def subScore (mS mP : Int) (a b : Char) : Int :=
  if a = b then mS else mP

/-- Fill the tail of one dynamic-programming row: consumes the second
sequence and the tail of the previous row in lockstep, carrying the
diagonal neighbour `diag` and the left neighbour `left`. -/
def nwRowAux (mS mP gP : Int) (a : Char) : List Char → List Int → Int → Int → List Int
  | b :: bs, up :: us, diag, left =>
    let v := max (max (diag + subScore mS mP a b) (up + gP)) (left + gP)
    v :: nwRowAux mS mP gP a bs us up v
  | _, _, _, _ => []

/-- Next dynamic-programming row from the previous one, for one character
`a` of the first sequence. -/
def nwRow (mS mP gP : Int) (seq2 : List Char) (prev : List Int) (a : Char) : List Int :=
  match prev with
  | [] => []
  | p0 :: rest => (p0 + gP) :: nwRowAux mS mP gP a seq2 rest p0 (p0 + gP)

/-- Optimal global alignment score of two sequences, the score
`pairwise2.align.globalms(seq1, seq2, mS, mP, gP, gP)` computes
(gap open = gap extend = `gP`, so the gap penalty is linear):
iterate the Needleman-Wunsch rows over `seq1` and read the last cell. -/
def globalms_score (mS mP gP : Int) (seq1 seq2 : List Char) : Int :=
  (seq1.foldl (nwRow mS mP gP seq2)
    ((List.range (seq2.length + 1)).map (fun (j : ℕ) => (j : Int) * gP))).getLastD 0

/-- The Needleman-Wunsch score matrix as a recurrence: `nwMatrix mS mP gP A B i j`
is the optimal score of aligning the first `i` characters of `A` against the
first `j` characters of `B`. Reference form used in proofs; `globalms_score`
computes `nwMatrix mS mP gP A B A.length B.length`. -/
def nwMatrix (mS mP gP : Int) (A B : List Char) : Nat → Nat → Int
  | 0, 0 => 0
  | i + 1, 0 => nwMatrix mS mP gP A B i 0 + gP
  | 0, j + 1 => nwMatrix mS mP gP A B 0 j + gP
  | i + 1, j + 1 =>
    max (max (nwMatrix mS mP gP A B i j + (if A.get? i = B.get? j then mS else mP))
      (nwMatrix mS mP gP A B i (j + 1) + gP))
      (nwMatrix mS mP gP A B (i + 1) j + gP)
  termination_by i j => (i, j)

/-- Python source, lines 11-19.  `needleman_wunsch_similarity(seq1, seq2,
match_score=3, mismatch_penalty=-1, gap_penalty=-2)`: when `pairwise2`
returns no alignments (exactly when a sequence is empty) the function
returns `0.0`; otherwise the best alignment score normalised by
`max(len(seq1), len(seq2)) * match_score`. -/
def needleman_wunsch_similarity (seq1 seq2 : List Char)
    (match_score mismatch_penalty gap_penalty : Int) : ℚ :=
  if seq1 = [] ∨ seq2 = [] then 0
  else ((globalms_score match_score mismatch_penalty gap_penalty seq1 seq2 : Int) : ℚ) /
    ((max seq1.length seq2.length : ℕ) * (match_score : ℚ))

/-- Python's built-in `round` on a rational: round to the nearest integer,
ties going to the even integer (banker's rounding). -/
def pyRound (x : ℚ) : Int :=
  let f := Rat.floor x
  let r := x - (f : ℚ)
  if r < 1 / 2 then f
  else if 1 / 2 < r then f + 1
  else if f % 2 = 0 then f else f + 1

/-- Integer similarity percentage, source line 237 (and 163):
`similarity_percentage = round(similarity_score * 100)`. -/
def similarity_percentage (s : ℚ) : Int :=
  pyRound (s * 100)

/-- Source line 230: `SIMILARITY_THRESHOLD = 100` (percentage of an exact match). -/
def SIMILARITY_THRESHOLD : Int := 100

/-- Source line 231: `SIMILARITY_THRESHOLD_CHILD = 96` (kinship percentage threshold). -/
def SIMILARITY_THRESHOLD_CHILD : Int := 96

/-- Source line 136: `similarity_threshold = 1` used by `identify` as
`similarity_score == similarity_threshold` (strict equality on the score). -/
def similarity_threshold : ℚ := 1

/-- Exact-tier test of the `/missing` scan, source line 241:
`similarity_percentage == SIMILARITY_THRESHOLD`. -/
def exactTier (s : ℚ) : Bool :=
  similarity_percentage s == SIMILARITY_THRESHOLD

/-- Relative-tier test of the `/missing` scan, source line 247:
`similarity_percentage >= SIMILARITY_THRESHOLD_CHILD`. -/
def relativeTier (s : ℚ) : Bool :=
  decide (SIMILARITY_THRESHOLD_CHILD ≤ similarity_percentage s)

/-- A population record, with the fields the matching engine reads.
`status` and `national_id` are `Option`s because the code accesses them
with `entry.get(...)`; `dna` models the optional `DNA_sequence` key. -/
structure Record where
  name : String
  status : Option String
  national_id : Option String
  dna : Option (List Char)
deriving DecidableEq, Repr

/-- Number of records in a population that carry a `DNA_sequence`, i.e.
the number of alignment computations a full scan performs. -/
def dnaCount (pop : List Record) : Nat :=
  (pop.filter (fun e => e.dna.isSome)).length

/-- State accumulated by the `/missing` scan loop (source lines 232-252):
the current `match_info` with its percentage, the collected
`potential_children_info`, and how many records were scored. -/
structure ScanState where
  main : Option (Record × Int)
  relatives : List Record
  scored : Nat
deriving DecidableEq, Repr

/-- The `/missing` scan loop, source lines 232-252.  Every record with a
`DNA_sequence` is scored (no early exit: the `break` on line 245 is
commented out).  A record whose percentage equals `SIMILARITY_THRESHOLD`
overwrites `match_info` (so the last one in population order wins, which
the head-first recursion expresses by preferring the result of the tail);
a record whose percentage is at least `SIMILARITY_THRESHOLD_CHILD` is
appended to the relatives list. -/
def missingScan (q : List Char) : List Record → ScanState
  | [] => ⟨none, [], 0⟩
  | e :: es =>
    match e.dna with
    | none => missingScan q es
    | some d =>
      let s := needleman_wunsch_similarity q (d.take 2000) 3 (-1) (-2)
      let p := similarity_percentage s
      let rest := missingScan q es
      { main := if exactTier s then
          (match rest.main with
            | some mp => some mp
            | none => some (e, p))
          else rest.main
        relatives := if relativeTier s then e :: rest.relatives else rest.relatives
        scored := rest.scored + 1 }

/-- Outcome of the `/missing` route (source lines 254-279): no match at
all (404), a main match with a non-empty filtered relatives list, or a
main match whose relatives list came out empty (reported explicitly). -/
inductive MissingResult where
  | noMatch : MissingResult
  | found : Record → Int → List Record → MissingResult
  | foundNoRelatives : Record → Int → MissingResult
deriving DecidableEq, Repr

/-- The `/missing` search, source lines 226-279.  Runs the scan; if a main
match exists, removes every relative candidate whose `national_id` equals
the main match's `national_id` and reports the main match together with
the remaining candidates.  Also returns how many records were scored. -/
def find_with_relatives (q : List Char) (pop : List Record) : MissingResult × Nat :=
  let st := missingScan q pop
  match st.main with
  | none => (.noMatch, st.scored)
  | some (m, p) =>
    let rels := st.relatives.filter (fun c => c.national_id != m.national_id)
    if rels.isEmpty then (.foundNoRelatives m p, st.scored)
    else (.found m p rels, st.scored)

/-- Projection: the primary match (record and percentage) reported by a
`/missing` outcome, if any. -/
def mainOf : MissingResult → Option (Record × Int)
  | .noMatch => none
  | .found m p _ => some (m, p)
  | .foundNoRelatives m p => some (m, p)

/-- Projection: the relative candidates reported by a `/missing` outcome. -/
def relativesOf : MissingResult → List Record
  | .noMatch => []
  | .found _ _ rels => rels
  | .foundNoRelatives _ _ => []

/-- State accumulated by the `identify` scan loop (source lines 157-174):
the `matches` list, the last assigned `match_info`, the last computed
`similarity_percentage`, and how many records were scored. -/
structure IdScan where
  found : List Record
  info : Option Record
  lastPerc : Option Int
  scored : Nat
deriving DecidableEq, Repr

/-- The `identify` scan loop, source lines 157-174.  Each record with a
`DNA_sequence` is scored; a record is appended to `matches` exactly when
its similarity equals `similarity_threshold` (strict equality with 1),
and the loop `break`s as soon as the percentage equals 100 (which a
similarity of 1 always satisfies, so the loop stops at the first exact
match). -/
def identifyScan (q : List Char) : List Record → IdScan
  | [] => ⟨[], none, none, 0⟩
  | e :: es =>
    match e.dna with
    | none => identifyScan q es
    | some d =>
      let s := needleman_wunsch_similarity q (d.take 2000) 3 (-1) (-2)
      let p := similarity_percentage s
      if s = similarity_threshold then
        if p = 100 then ⟨[e], some e, some p, 1⟩
        else
          let rest := identifyScan q es
          ⟨e :: rest.found, some (rest.info.getD e), some (rest.lastPerc.getD p), rest.scored + 1⟩
      else
        let rest := identifyScan q es
        ⟨rest.found, rest.info, some (rest.lastPerc.getD p), rest.scored + 1⟩

/-- Outcome of the `/identify` route: the invalid-status error (400), a
match (`match_info` with its percentage, 200), or "No matches found" (400). -/
inductive IdentifyResult where
  | invalidStatus : IdentifyResult
  | matched : Record → Int → IdentifyResult
  | noMatches : IdentifyResult
deriving DecidableEq, Repr

/-- Assemble the `identify` response from the scan state (source lines
176-189): report `match_info` and the last percentage when `matches` is
non-empty, otherwise "No matches found".  (When `found` is non-empty the
scan always set `info` and `lastPerc`, so the fallback arm is unreachable.) -/
def identifyAssemble (st : IdScan) : IdentifyResult × Nat :=
  if st.found.isEmpty then (.noMatches, st.scored)
  else
    match st.info, st.lastPerc with
    | some i, some p => (.matched i p, st.scored)
    | _, _ => (.noMatches, st.scored)

/-- Source line 149: `valid_statuses = ['missing', 'acknowledged', 'crime', 'disaster']`. -/
def valid_statuses : List String := ["missing", "acknowledged", "crime", "disaster"]

/-- The `identify` search, source lines 144-189.  With status `'all'` the
whole population is scanned; with one of the `valid_statuses` the
population is filtered on `entry.get('status') == selected_status` first;
any other status is rejected before a single record is scored. -/
def identify (q : List Char) (selected_status : String) (pop : List Record) :
    IdentifyResult × Nat :=
  if selected_status = "all" then
    identifyAssemble (identifyScan q pop)
  else if selected_status ∈ valid_statuses then
    identifyAssemble (identifyScan q (pop.filter (fun e => e.status == some selected_status)))
  else (.invalidStatus, 0)

/-- Closed form of the score matrix for a query of `i` letters `'A'`
against the first `j` characters of `'A' * m ++ "C"`, under the default
parameters (match 3, mismatch -1, gap -2).  For `j ≤ m` every compared
character matches; the column `j = m + 1` pays for the final `'C'`. -/
def famF (m i j : Nat) : Int :=
  if j ≤ m then 7 * (min i j : ℤ) - 2 * i - 2 * j
  else if i ≤ m then 5 * (i : ℤ) - 2 * m - 2
  else 3 * (m : ℤ) - 2 * ((i : ℤ) - m) + 1

/-- Query sequence of the C1 counterexample: 267 letters `'A'`. -/
def seqA267 : List Char := List.replicate 267 'A'

/-- Population sequence of the C1 counterexample: 266 letters `'A'`
followed by one `'C'` - one substitution away from the query, similarity
797/801 which is strictly below 1 but rounds to percentage 100. -/
def seqB267 : List Char := List.replicate 266 'A' ++ ['C']

/-- Population record carrying `seqB267`. -/
def recB267 : Record := ⟨"borderline", some "missing", some "90", some seqB267⟩

/-- Query of the C2 amended demonstration: 75 letters `'A'`. -/
def seqA75 : List Char := List.replicate 75 'A'

/-- Sequence at similarity exactly 24/25 = 0.96 against `seqA75`:
73 letters `'A'` and one `'C'` (score 216 of a possible 225). -/
def seqR75 : List Char := List.replicate 73 'A' ++ ['C']

/-- Record with an exact copy of the 75-letter query. -/
def recE75 : Record := ⟨"exact75", some "missing", some "10", some seqA75⟩

/-- Record whose sequence sits exactly on the 0.96 similarity boundary. -/
def recR75 : Record := ⟨"cousin75", some "missing", some "11", some seqR75⟩

/-- Tiny query used by several concrete witnesses. -/
def seqAC : List Char := ['A', 'C']

/-- Record with DNA identical to `seqAC`, national id 1. -/
def recAC1 : Record := ⟨"first", some "missing", some "1", some ['A', 'C']⟩

/-- Record with DNA identical to `seqAC`, national id 2. -/
def recAC2 : Record := ⟨"second", some "missing", some "2", some ['A', 'C']⟩

/-- Record whose DNA `"GG"` scores similarity -1/3 against `seqAC`. -/
def recGG : Record := ⟨"far", some "crime", some "3", some ['G', 'G']⟩

/-- Record with no `DNA_sequence` key: it is never scored. -/
def recNoDna : Record := ⟨"nodna", some "crime", some "4", none⟩

/-- Query of the C6 witness: 30 letters `'A'`. -/
def seqA30 : List Char := List.replicate 30 'A'

/-- Sequence with one substitution against `seqA30`: similarity 86/90,
percentage 96 - Relative tier but not Exact tier. -/
def seqR30 : List Char := List.replicate 29 'A' ++ ['C']

/-- Record carrying `seqR30`. -/
def recR30 : Record := ⟨"kin30", some "missing", some "5", some seqR30⟩

/-! ### Scorer theory: the row iteration computes the Needleman-Wunsch matrix -/

lemma nwMatrix_zero_left (mS mP gP : Int) (A B : List Char) :
    ∀ j, nwMatrix mS mP gP A B 0 j = (j : ℤ) * gP
  | 0 => by simp [nwMatrix]
  | j + 1 => by
    have h := nwMatrix_zero_left mS mP gP A B j
    simp only [nwMatrix, h]
    push_cast
    ring

lemma nwMatrix_zero_right (mS mP gP : Int) (A B : List Char) :
    ∀ i, nwMatrix mS mP gP A B i 0 = (i : ℤ) * gP
  | 0 => by simp [nwMatrix]
  | i + 1 => by
    have h := nwMatrix_zero_right mS mP gP A B i
    simp only [nwMatrix, h]
    push_cast
    ring

lemma nwRowAux_spec (mS mP gP : Int) (A B : List Char) (a : Char) (i : Nat)
    (ha : A.get? i = some a) :
    ∀ (bs : List Char) (j : Nat), B.drop j = bs →
      nwRowAux mS mP gP a bs
          ((List.range' (j + 1) bs.length).map (nwMatrix mS mP gP A B i))
          (nwMatrix mS mP gP A B i j) (nwMatrix mS mP gP A B (i + 1) j)
        = (List.range' (j + 1) bs.length).map (nwMatrix mS mP gP A B (i + 1))
  | [], j, _ => by simp [nwRowAux]
  | b :: bs, j, hdrop => by
    have hBj : B.get? j = some b := by
      have h0 := List.get?_drop B j 0
      rw [hdrop] at h0
      simpa using h0.symm
    have hdrop2 : B.drop (j + 1) = bs := by
      have h1 := List.drop_drop 1 j B
      rw [hdrop] at h1
      simpa using h1.symm
    have ih := nwRowAux_spec mS mP gP A B a i ha bs (j + 1) hdrop2
    have hv : max (max (nwMatrix mS mP gP A B i j + subScore mS mP a b)
        (nwMatrix mS mP gP A B i (j + 1) + gP)) (nwMatrix mS mP gP A B (i + 1) j + gP)
        = nwMatrix mS mP gP A B (i + 1) (j + 1) := by
      simp only [nwMatrix, ha, hBj, Option.some.injEq, subScore]
    simp only [List.length_cons, List.range'_succ, List.map_cons, nwRowAux]
    rw [hv, ih]

lemma nwRow_spec (mS mP gP : Int) (A B : List Char) (a : Char) (i : Nat)
    (ha : A.get? i = some a) :
    nwRow mS mP gP B ((List.range' 0 (B.length + 1)).map (nwMatrix mS mP gP A B i)) a
      = (List.range' 0 (B.length + 1)).map (nwMatrix mS mP gP A B (i + 1)) := by
  have h0 : nwMatrix mS mP gP A B i 0 + gP = nwMatrix mS mP gP A B (i + 1) 0 := by
    simp [nwMatrix]
  have haux := nwRowAux_spec mS mP gP A B a i ha B 0 rfl
  simp only [List.range'_succ, List.map_cons, nwRow]
  rw [h0, haux]

lemma fold_spec (mS mP gP : Int) (A B : List Char) :
    ∀ i, i ≤ A.length →
      (A.take i).foldl (nwRow mS mP gP B)
          ((List.range (B.length + 1)).map (fun (j : ℕ) => (j : Int) * gP))
        = (List.range' 0 (B.length + 1)).map (nwMatrix mS mP gP A B i)
  | 0, _ => by
    rw [List.take_zero, List.foldl_nil, List.range_eq_range']
    exact List.map_congr_left fun j _ => (nwMatrix_zero_left mS mP gP A B j).symm
  | i + 1, h => by
    have hi : i < A.length := by omega
    have ha : A.get? i = some (A.get ⟨i, hi⟩) := List.get?_eq_get hi
    have ha2 : A[i]? = some (A.get ⟨i, hi⟩) := by simpa using ha
    rw [List.take_succ, List.foldl_append, fold_spec mS mP gP A B i (by omega), ha2]
    simp only [Option.toList_some, List.foldl_cons, List.foldl_nil]
    exact nwRow_spec mS mP gP A B (A.get ⟨i, hi⟩) i ha

lemma globalms_score_eq_nwMatrix (mS mP gP : Int) (A B : List Char) :
    globalms_score mS mP gP A B = nwMatrix mS mP gP A B A.length B.length := by
  have h := fold_spec mS mP gP A B A.length le_rfl
  rw [List.take_length] at h
  unfold globalms_score
  rw [h, List.range'_concat, List.map_append]
  simp

lemma nwMatrix_symm (mS mP gP : Int) (A B : List Char) :
    ∀ n i j, i + j ≤ n → nwMatrix mS mP gP A B i j = nwMatrix mS mP gP B A j i := by
  intro n
  induction n with
  | zero =>
    intro i j h
    have hi : i = 0 := by omega
    have hj : j = 0 := by omega
    subst hi; subst hj
    simp [nwMatrix]
  | succ n ih =>
    intro i j h
    cases i with
    | zero =>
      cases j with
      | zero => simp [nwMatrix]
      | succ j =>
        simp only [nwMatrix]
        rw [ih 0 j (by omega)]
    | succ i =>
      cases j with
      | zero =>
        simp only [nwMatrix]
        rw [ih i 0 (by omega)]
      | succ j =>
        simp only [nwMatrix]
        rw [ih i j (by omega), ih i (j + 1) (by omega), ih (i + 1) j (by omega)]
        have hcost : (if A.get? i = B.get? j then mS else mP)
            = (if B.get? j = A.get? i then mS else mP) := by
          by_cases hc : A.get? i = B.get? j
          · rw [if_pos hc, if_pos hc.symm]
          · rw [if_neg hc, if_neg (fun hh => hc hh.symm)]
        rw [hcost]
        omega

lemma nwMatrix_le (mS mP gP : Int) (A B : List Char) (hPm : mP ≤ mS) (hg : gP ≤ 0)
    (h0 : 0 ≤ mS) :
    ∀ n i j, i + j ≤ n → nwMatrix mS mP gP A B i j ≤ mS * ((min i j : ℕ) : ℤ) := by
  intro n
  induction n with
  | zero =>
    intro i j h
    have hi : i = 0 := by omega
    have hj : j = 0 := by omega
    subst hi; subst hj
    simp [nwMatrix]
  | succ n ih =>
    intro i j h
    cases i with
    | zero =>
      cases j with
      | zero => simp [nwMatrix]
      | succ j =>
        have h1 := ih 0 j (by omega)
        simp only [Nat.zero_min, Nat.cast_zero, mul_zero] at h1 ⊢
        simp only [nwMatrix]
        linarith
    | succ i =>
      cases j with
      | zero =>
        have h1 := ih i 0 (by omega)
        simp only [Nat.min_zero, Nat.cast_zero, mul_zero] at h1 ⊢
        simp only [nwMatrix]
        linarith
      | succ j =>
        have h1 := ih i j (by omega)
        have h2 := ih i (j + 1) (by omega)
        have h3 := ih (i + 1) j (by omega)
        have hc : (if A.get? i = B.get? j then mS else mP) ≤ mS := by
          split
          · exact le_rfl
          · exact hPm
        have hmin : (min (i + 1) (j + 1) : ℕ) = min i j + 1 := by omega
        have hm2 : ((min i (j + 1) : ℕ) : ℤ) ≤ ((min (i + 1) (j + 1) : ℕ) : ℤ) := by
          have : (min i (j + 1) : ℕ) ≤ (min (i + 1) (j + 1) : ℕ) := by omega
          exact_mod_cast this
        have hm3 : ((min (i + 1) j : ℕ) : ℤ) ≤ ((min (i + 1) (j + 1) : ℕ) : ℤ) := by
          have : (min (i + 1) j : ℕ) ≤ (min (i + 1) (j + 1) : ℕ) := by omega
          exact_mod_cast this
        have hmul2 := mul_le_mul_of_nonneg_left hm2 h0
        have hmul3 := mul_le_mul_of_nonneg_left hm3 h0
        simp only [nwMatrix]
        apply max_le (max_le _ _) _
        · calc nwMatrix mS mP gP A B i j + (if A.get? i = B.get? j then mS else mP)
              ≤ mS * ((min i j : ℕ) : ℤ) + mS := by linarith
            _ = mS * (((min i j : ℕ) : ℤ) + 1) := by ring
            _ = mS * ((min (i + 1) (j + 1) : ℕ) : ℤ) := by rw [hmin]; push_cast; ring
        · linarith
        · linarith

lemma nwMatrix_self_diag (mS mP gP : Int) (A : List Char) :
    ∀ i : ℕ, mS * (i : ℤ) ≤ nwMatrix mS mP gP A A i i
  | 0 => by simp [nwMatrix]
  | i + 1 => by
    have ih := nwMatrix_self_diag mS mP gP A i
    have hstep : nwMatrix mS mP gP A A i i + mS ≤ nwMatrix mS mP gP A A (i + 1) (i + 1) := by
      simp only [nwMatrix, eq_self_iff_true, if_true]
      exact le_trans (le_max_left _ _) (le_max_left _ _)
    push_cast
    linarith

lemma globalms_score_self (A : List Char) :
    globalms_score 3 (-1) (-2) A A = 3 * (A.length : ℤ) := by
  rw [globalms_score_eq_nwMatrix]
  have h1 := nwMatrix_le 3 (-1) (-2) A A (by norm_num) (by norm_num) (by norm_num)
      (A.length + A.length) A.length A.length le_rfl
  have h2 := nwMatrix_self_diag 3 (-1) (-2) A A.length
  rw [min_self] at h1
  omega

lemma nwMatrix_fam (n m : Nat) :
    ∀ N i j, i + j ≤ N → i ≤ n → j ≤ m + 1 →
      nwMatrix 3 (-1) (-2) (List.replicate n 'A') (List.replicate m 'A' ++ ['C']) i j
        = famF m i j := by
  intro N
  induction N with
  | zero =>
    intro i j h hi hj
    have hi0 : i = 0 := by omega
    have hj0 : j = 0 := by omega
    subst hi0; subst hj0
    simp [nwMatrix, famF]
  | succ N ih =>
    intro i j h hi hj
    cases i with
    | zero =>
      cases j with
      | zero => simp [nwMatrix, famF]
      | succ j =>
        simp only [nwMatrix]
        rw [ih 0 j (by omega) (by omega) (by omega)]
        simp only [famF]
        split_ifs <;> push_cast <;> omega
    | succ i =>
      cases j with
      | zero =>
        simp only [nwMatrix]
        rw [ih i 0 (by omega) (by omega) (by omega)]
        simp only [famF]
        split_ifs <;> push_cast <;> omega
      | succ j =>
        have hA : (List.replicate n 'A').get? i = some 'A' := by
          rw [List.get?_eq_getElem?]
          exact List.getElem?_replicate_of_lt (by omega)
        have hij1 := ih i j (by omega) (by omega) (by omega)
        have hij2 := ih i (j + 1) (by omega) (by omega) (by omega)
        have hij3 := ih (i + 1) j (by omega) (by omega) (by omega)
        rcases Nat.lt_or_ge j m with hjm | hjm
        · have hB : (List.replicate m 'A' ++ ['C']).get? j = some 'A' := by
            rw [List.get?_eq_getElem?, List.getElem?_append_left (by simpa using hjm)]
            exact List.getElem?_replicate_of_lt hjm
          simp only [nwMatrix, hA, hB, Option.some.injEq, eq_self_iff_true, if_true]
          rw [hij1, hij2, hij3]
          simp only [famF]
          split_ifs <;> push_cast <;> omega
        · have hjeq : j = m := by omega
          subst hjeq
          have hB : (List.replicate j 'A' ++ ['C']).get? j = some 'C' := by
            have hc := List.getElem?_concat_length (List.replicate j 'A') 'C'
            rw [List.length_replicate] at hc
            rw [List.get?_eq_getElem?]
            exact hc
          simp only [nwMatrix, hA, hB, Option.some.injEq]
          rw [if_neg (by decide), hij1, hij2, hij3]
          simp only [famF]
          split_ifs <;> push_cast <;> omega

lemma globalms_score_seqB267 : globalms_score 3 (-1) (-2) seqA267 seqB267 = 797 := by
  show globalms_score 3 (-1) (-2) (List.replicate 267 'A')
    (List.replicate 266 'A' ++ ['C']) = 797
  rw [globalms_score_eq_nwMatrix]
  have hlen1 : (List.replicate 267 'A').length = 267 := by
    simp only [List.length_replicate]
  have hlen2 : (List.replicate 266 'A' ++ ['C']).length = 267 := by
    simp only [List.length_append, List.length_replicate, List.length_cons, List.length_nil]
  rw [hlen1, hlen2]
  rw [nwMatrix_fam 267 266 (267 + 267) 267 267 (by omega) (by omega) (by omega)]
  simp only [famF]
  norm_num

lemma globalms_score_seqR75 : globalms_score 3 (-1) (-2) seqA75 seqR75 = 216 := by
  show globalms_score 3 (-1) (-2) (List.replicate 75 'A')
    (List.replicate 73 'A' ++ ['C']) = 216
  rw [globalms_score_eq_nwMatrix]
  have hlen1 : (List.replicate 75 'A').length = 75 := by
    simp only [List.length_replicate]
  have hlen2 : (List.replicate 73 'A' ++ ['C']).length = 74 := by
    simp only [List.length_append, List.length_replicate, List.length_cons, List.length_nil]
  rw [hlen1, hlen2]
  rw [nwMatrix_fam 75 73 (75 + 74) 75 74 (by omega) (by omega) (by omega)]
  simp only [famF]
  norm_num

lemma seqA267_length : seqA267.length = 267 := by
  simp only [seqA267, List.length_replicate]

lemma seqB267_length : seqB267.length = 267 := by
  simp only [seqB267, List.length_append, List.length_replicate, List.length_cons,
    List.length_nil]

lemma sim_seqB267 :
    needleman_wunsch_similarity seqA267 (seqB267.take 2000) 3 (-1) (-2) = 797 / 801 := by
  have htake : seqB267.take 2000 = seqB267 := by
    apply List.take_of_length_le
    rw [seqB267_length]
    omega
  rw [htake]
  unfold needleman_wunsch_similarity
  rw [if_neg]
  · rw [globalms_score_seqB267, seqA267_length, seqB267_length]
    norm_num
  · rintro (h | h)
    · have := congrArg List.length h
      rw [seqA267_length] at this
      simp at this
    · have := congrArg List.length h
      rw [seqB267_length] at this
      simp at this

lemma seqA75_length : seqA75.length = 75 := by
  simp only [seqA75, List.length_replicate]

lemma seqR75_length : seqR75.length = 74 := by
  simp only [seqR75, List.length_append, List.length_replicate, List.length_cons,
    List.length_nil]

lemma sim_seqR75 :
    needleman_wunsch_similarity seqA75 (seqR75.take 2000) 3 (-1) (-2) = 24 / 25 := by
  have htake : seqR75.take 2000 = seqR75 := by
    apply List.take_of_length_le
    rw [seqR75_length]
    omega
  rw [htake]
  unfold needleman_wunsch_similarity
  rw [if_neg]
  · rw [globalms_score_seqR75, seqA75_length, seqR75_length]
    norm_num
  · rintro (h | h)
    · have := congrArg List.length h
      rw [seqA75_length] at this
      simp at this
    · have := congrArg List.length h
      rw [seqR75_length] at this
      simp at this

lemma sim_self (A : List Char) (h : A ≠ []) :
    needleman_wunsch_similarity A A 3 (-1) (-2) = 1 := by
  unfold needleman_wunsch_similarity
  rw [if_neg (by simp [h])]
  rw [globalms_score_self, max_self]
  have hn : (A.length : ℚ) ≠ 0 := by
    simp only [ne_eq, Nat.cast_eq_zero, List.length_eq_zero]
    exact h
  push_cast
  field_simp
  ring

/-! ### Rounding and tier boundaries -/

lemma ratFloor_eq_floor (x : ℚ) : Rat.floor x = ⌊x⌋ := by
  rw [Rat.floor_def', Rat.floor_def]

lemma pyRound_def (x : ℚ) : pyRound x =
    (if x - (⌊x⌋ : ℚ) < 1 / 2 then ⌊x⌋
      else if 1 / 2 < x - (⌊x⌋ : ℚ) then ⌊x⌋ + 1
      else if ⌊x⌋ % 2 = 0 then ⌊x⌋ else ⌊x⌋ + 1) := by
  simp only [pyRound, ratFloor_eq_floor]

lemma pyRound_eq_hundred (x : ℚ) : pyRound x = 100 ↔ 199 / 2 ≤ x ∧ x ≤ 201 / 2 := by
  rw [pyRound_def]
  have hfl : (⌊x⌋ : ℚ) ≤ x := Int.floor_le x
  have hfu : x < ⌊x⌋ + 1 := Int.lt_floor_add_one x
  constructor
  · intro h
    split_ifs at h with h1 h2 h3
    · rw [h] at hfl hfu h1
      push_cast at hfl hfu h1
      constructor <;> linarith
    · have h99 : ⌊x⌋ = 99 := by omega
      rw [h99] at hfl hfu h1 h2
      push_cast at hfl hfu h1 h2
      constructor <;> linarith
    · rw [h] at hfl hfu h1 h2
      push_cast at hfl hfu h1 h2
      constructor <;> linarith
    · have h99 : ⌊x⌋ = 99 := by omega
      rw [h99] at hfl hfu h1 h2
      push_cast at hfl hfu h1 h2
      constructor <;> linarith
  · rintro ⟨ha, hb⟩
    rcases le_or_lt (100 : ℚ) x with hx | hx
    · have hF : ⌊x⌋ = 100 := by
        rw [Int.floor_eq_iff]
        push_cast
        constructor <;> linarith
      rw [hF]
      push_cast
      split_ifs <;> first | (exfalso; linarith) | (exfalso; omega) | norm_num
    · have hF : ⌊x⌋ = 99 := by
        rw [Int.floor_eq_iff]
        push_cast
        constructor <;> linarith
      rw [hF]
      push_cast
      split_ifs <;> first | (exfalso; linarith) | (exfalso; omega) | norm_num

lemma exactTier_iff (s : ℚ) : exactTier s = true ↔ 199 / 200 ≤ s ∧ s ≤ 201 / 200 := by
  simp only [exactTier, similarity_percentage, SIMILARITY_THRESHOLD, beq_iff_eq]
  rw [pyRound_eq_hundred]
  constructor <;> rintro ⟨h1, h2⟩ <;> constructor <;> linarith

lemma exactTier_percentage (s : ℚ) (h : exactTier s = true) :
    similarity_percentage s = 100 := by
  simpa only [exactTier, SIMILARITY_THRESHOLD, beq_iff_eq] using h

unseal Rat.add Rat.sub Rat.mul Rat.inv Rat.ofScientific in
lemma exactTier_797 : exactTier (797 / 801) = true := by decide

unseal Rat.add Rat.sub Rat.mul Rat.inv Rat.ofScientific in
lemma relativeTier_797 : relativeTier (797 / 801) = true := by decide

unseal Rat.add Rat.sub Rat.mul Rat.inv Rat.ofScientific in
lemma perc_797 : similarity_percentage (797 / 801) = 100 := by decide

/-! ### Scan lemmas for the missing-person search -/

lemma missingScan_scored (q : List Char) :
    ∀ pop, (missingScan q pop).scored = dnaCount pop
  | [] => by simp [missingScan, dnaCount]
  | e :: es => by
    have ih := missingScan_scored q es
    cases hd : e.dna with
    | none => simp [missingScan, hd, dnaCount, List.filter_cons, ih]
    | some d => simp [missingScan, hd, dnaCount, List.filter_cons, ih]

lemma missingScan_main_none (q : List Char) :
    ∀ pop, (∀ e ∈ pop, ∀ d, e.dna = some d →
        exactTier (needleman_wunsch_similarity q (d.take 2000) 3 (-1) (-2)) = false) →
      (missingScan q pop).main = none
  | [], _ => by simp [missingScan]
  | e :: es, h => by
    have ih := missingScan_main_none q es (fun x hx => h x (List.mem_cons_of_mem e hx))
    cases hd : e.dna with
    | none => simpa [missingScan, hd] using ih
    | some d =>
      have hx := h e (List.mem_cons_self e es) d hd
      simp [missingScan, hd, hx, ih]

lemma missingScan_main_append (q : List Char) (v : Record × Int) :
    ∀ xs ys, (missingScan q ys).main = some v →
      (missingScan q (xs ++ ys)).main = some v
  | [], _, h => h
  | e :: xs, ys, h => by
    have ih := missingScan_main_append q v xs ys h
    cases hd : e.dna with
    | none => simpa [missingScan, hd] using ih
    | some d => simp [missingScan, hd, ih]

lemma missingScan_main_inv (q : List Char) :
    ∀ pop r p, (missingScan q pop).main = some (r, p) →
      ∃ d, r.dna = some d ∧
        exactTier (needleman_wunsch_similarity q (d.take 2000) 3 (-1) (-2)) = true ∧
        p = 100
  | [], r, p, h => by simp [missingScan] at h
  | e :: es, r, p, h => by
    cases hd : e.dna with
    | none =>
      rw [show missingScan q (e :: es) = missingScan q es from by simp [missingScan, hd]] at h
      exact missingScan_main_inv q es r p h
    | some d =>
      by_cases hx : exactTier (needleman_wunsch_similarity q (d.take 2000) 3 (-1) (-2)) = true
      · rcases hrest : (missingScan q es).main with _ | mp
        · have heq : (missingScan q (e :: es)).main
              = some (e, similarity_percentage
                  (needleman_wunsch_similarity q (d.take 2000) 3 (-1) (-2))) := by
            simp [missingScan, hd, hx, hrest]
          rw [heq] at h
          simp only [Option.some.injEq, Prod.mk.injEq] at h
          obtain ⟨h1, h2⟩ := h
          subst h1
          refine ⟨d, hd, hx, ?_⟩
          rw [← h2]
          exact (exactTier_percentage _ hx).symm ▸ rfl
        · have heq : (missingScan q (e :: es)).main = some mp := by
            simp [missingScan, hd, hx, hrest]
          rw [heq] at h
          obtain rfl : mp = (r, p) := by
            simpa using h
          exact missingScan_main_inv q es r p hrest
      · have heq : (missingScan q (e :: es)).main = (missingScan q es).main := by
          simp [missingScan, hd, hx]
        rw [heq] at h
        exact missingScan_main_inv q es r p h

lemma missingScan_relatives_inv (q : List Char) :
    ∀ pop c, c ∈ (missingScan q pop).relatives →
      ∃ d, c.dna = some d ∧
        relativeTier (needleman_wunsch_similarity q (d.take 2000) 3 (-1) (-2)) = true
  | [], c, h => by simp [missingScan] at h
  | e :: es, c, h => by
    cases hd : e.dna with
    | none =>
      rw [show missingScan q (e :: es) = missingScan q es from by simp [missingScan, hd]] at h
      exact missingScan_relatives_inv q es c h
    | some d =>
      by_cases hr : relativeTier (needleman_wunsch_similarity q (d.take 2000) 3 (-1) (-2)) = true
      · have heq : (missingScan q (e :: es)).relatives
            = e :: (missingScan q es).relatives := by
          simp [missingScan, hd, hr]
        rw [heq] at h
        rcases List.mem_cons.mp h with rfl | hmem
        · exact ⟨d, hd, hr⟩
        · exact missingScan_relatives_inv q es c hmem
      · have heq : (missingScan q (e :: es)).relatives = (missingScan q es).relatives := by
          simp [missingScan, hd, hr]
        rw [heq] at h
        exact missingScan_relatives_inv q es c h

lemma find_with_relatives_main (q : List Char) (pop : List Record) :
    mainOf (find_with_relatives q pop).1 = (missingScan q pop).main := by
  unfold find_with_relatives
  rcases h : (missingScan q pop).main with _ | mp
  · simp only [h]
    rfl
  · obtain ⟨m, p⟩ := mp
    simp only [h]
    by_cases hrels :
        ((missingScan q pop).relatives.filter (fun c => c.national_id != m.national_id)).isEmpty
    · rw [if_pos hrels]
      rfl
    · rw [if_neg hrels]
      rfl

lemma find_with_relatives_scored (q : List Char) (pop : List Record) :
    (find_with_relatives q pop).2 = dnaCount pop := by
  rw [← missingScan_scored q pop]
  unfold find_with_relatives
  rcases h : (missingScan q pop).main with _ | mp
  · simp only [h]
  · obtain ⟨m, p⟩ := mp
    simp only [h]
    by_cases hrels :
        ((missingScan q pop).relatives.filter (fun c => c.national_id != m.national_id)).isEmpty
    · rw [if_pos hrels]
    · rw [if_neg hrels]

lemma find_with_relatives_found (q : List Char) (pop : List Record) (m : Record) (p : Int)
    (rels : List Record) (h : (find_with_relatives q pop).1 = .found m p rels) :
    (missingScan q pop).main = some (m, p) ∧
      rels = (missingScan q pop).relatives.filter (fun c => c.national_id != m.national_id) := by
  simp only [find_with_relatives] at h
  rcases hm : (missingScan q pop).main with _ | mp
  · simp only [hm] at h
    simp at h
  · obtain ⟨m2, p2⟩ := mp
    simp only [hm] at h
    by_cases hrels :
        ((missingScan q pop).relatives.filter (fun c => c.national_id != m2.national_id)).isEmpty
    · rw [if_pos hrels] at h
      simp at h
    · rw [if_neg hrels] at h
      simp at h
      obtain ⟨rfl, rfl, rfl⟩ := h
      exact ⟨rfl, rfl⟩

/-! ### Scan lemmas for identify -/

unseal Rat.add Rat.sub Rat.mul Rat.inv Rat.ofScientific in
lemma perc_threshold : similarity_percentage similarity_threshold = 100 := by decide

lemma identifyScan_exact_first (q : List Char) (r : Record) (d : List Char)
    (hd : r.dna = some d)
    (hs : needleman_wunsch_similarity q (d.take 2000) 3 (-1) (-2) = similarity_threshold) :
    ∀ pre post,
      (∀ e ∈ pre, ∀ d2, e.dna = some d2 →
        needleman_wunsch_similarity q (d2.take 2000) 3 (-1) (-2) ≠ similarity_threshold) →
      identifyScan q (pre ++ r :: post) = ⟨[r], some r, some 100, dnaCount pre + 1⟩
  | [], post, _ => by
    simp only [List.nil_append]
    simp [identifyScan, hd, hs, perc_threshold, dnaCount]
  | e :: pre, post, hpre => by
    have ih := identifyScan_exact_first q r d hd hs pre post
      (fun x hx => hpre x (List.mem_cons_of_mem e hx))
    cases hde : e.dna with
    | none =>
      simp only [List.cons_append]
      simp [identifyScan, hde, ih, dnaCount, List.filter_cons]
    | some d2 =>
      have hne := hpre e (List.mem_cons_self e pre) d2 hde
      simp only [List.cons_append]
      simp [identifyScan, hde, hne, ih, dnaCount, List.filter_cons]

lemma identifyScan_info_inv (q : List Char) :
    ∀ pop r, (identifyScan q pop).info = some r →
      ∃ d, r.dna = some d ∧
        needleman_wunsch_similarity q (d.take 2000) 3 (-1) (-2) = similarity_threshold
  | [], r, h => by simp [identifyScan] at h
  | e :: es, r, h => by
    cases hd : e.dna with
    | none =>
      rw [show identifyScan q (e :: es) = identifyScan q es from by
        simp [identifyScan, hd]] at h
      exact identifyScan_info_inv q es r h
    | some d =>
      by_cases hs : needleman_wunsch_similarity q (d.take 2000) 3 (-1) (-2)
          = similarity_threshold
      · have heq : (identifyScan q (e :: es)).info = some e := by
          simp [identifyScan, hd, hs, perc_threshold]
        rw [heq] at h
        obtain rfl : e = r := by simpa using h
        exact ⟨d, hd, hs⟩
      · have heq : (identifyScan q (e :: es)).info = (identifyScan q es).info := by
          simp [identifyScan, hd, hs]
        rw [heq] at h
        exact identifyScan_info_inv q es r h

lemma identifyAssemble_ne_invalid (st : IdScan) :
    (identifyAssemble st).1 ≠ .invalidStatus := by
  obtain ⟨found, info, lastPerc, scored⟩ := st
  unfold identifyAssemble
  rcases info with _ | i <;> rcases lastPerc with _ | p <;> split_ifs <;> simp

lemma identifyAssemble_matched (st : IdScan) (r : Record) (p : Int)
    (h : (identifyAssemble st).1 = .matched r p) : st.info = some r := by
  obtain ⟨found, info, lastPerc, scored⟩ := st
  unfold identifyAssemble at h
  rcases info with _ | i <;> rcases lastPerc with _ | p2 <;> split_ifs at h <;> simp_all

lemma find_with_relatives_noRels (q : List Char) (pop : List Record) (m : Record)
    (p : Int) (hm : (missingScan q pop).main = some (m, p))
    (hrels : ((missingScan q pop).relatives.filter
      (fun c => c.national_id != m.national_id)).isEmpty = true) :
    (find_with_relatives q pop).1 = .foundNoRelatives m p := by
  unfold find_with_relatives
  simp only [hm]
  rw [if_pos hrels]

/-! ### Claim theorems -/

/-- C1 counterexample: in the `/missing` search the Exact tier is not
"similarity equal to 1.0": the record `recB267` has similarity 797/801,
strictly below 1, yet it is reported as the primary (Exact) match, because
the code compares the rounded percentage `round(sim * 100)` with 100 and
797/801 rounds to 100. -/
theorem missing_primary_below_one_counterexample :
    needleman_wunsch_similarity seqA267 (seqB267.take 2000) 3 (-1) (-2) < 1 ∧
    (find_with_relatives seqA267 [recB267]).1 = .foundNoRelatives recB267 100 := by
  have hs := sim_seqB267
  have hdna : recB267.dna = some seqB267 := rfl
  have hscan : missingScan seqA267 [recB267]
      = ⟨some (recB267, 100), [recB267], 1⟩ := by
    simp [missingScan, hdna, hs, exactTier_797, relativeTier_797, perc_797]
  constructor
  · rw [hs]
    norm_num
  · apply find_with_relatives_noRels
    · rw [hscan]
    · rw [hscan]
      simp [bne_self_eq_false]

/-- C1 amended: a record is classified into the Exact tier of
`find_with_relatives`, and can be reported as the primary match, if and
only if its rounded integer percentage equals 100, i.e. its normalized
similarity lies in [199/200, 201/200] - not only at exactly 1.0.  Every
reported primary match satisfies the Exact-tier test and carries
percentage 100. -/
theorem missing_exact_tier_amended :
    (∀ (q : List Char) (pop : List Record) (r : Record) (p : Int),
        mainOf (find_with_relatives q pop).1 = some (r, p) →
        ∃ d, r.dna = some d ∧
          exactTier (needleman_wunsch_similarity q (d.take 2000) 3 (-1) (-2)) = true ∧
          p = 100) ∧
    (∀ s : ℚ, exactTier s = true ↔ 199 / 200 ≤ s ∧ s ≤ 201 / 200) := by
  constructor
  · intro q pop r p h
    rw [find_with_relatives_main] at h
    exact missingScan_main_inv q pop r p h
  · exact exactTier_iff

unseal Rat.add Rat.sub Rat.mul Rat.inv Rat.ofScientific in
/-- Witness for the amended C1 theorem at a concrete exact match. -/
theorem missing_exact_tier_amended_witness :
    ∃ d, recAC1.dna = some d ∧
      exactTier (needleman_wunsch_similarity seqAC (d.take 2000) 3 (-1) (-2)) = true ∧
      (100 : Int) = 100 :=
  missing_exact_tier_amended.1 seqAC [recAC1] recAC1 100 (by decide)

unseal Rat.add Rat.sub Rat.mul Rat.inv Rat.ofScientific in
/-- C2 counterexample: the claim "similarity 0.9599 is not classified as
Relative" is false: the code rounds `0.9599 * 100 = 95.99` to the integer
percentage 96 and compares it with the threshold 96, so 0.9599 passes the
Relative-tier test. -/
theorem relative_tier_boundary_counterexample :
    ¬(relativeTier (24 / 25) = true ∧ relativeTier (9599 / 10000) = false) := by
  decide

set_option maxRecDepth 40000 in
unseal Rat.add Rat.sub Rat.mul Rat.inv Rat.ofScientific in
/-- C2 amended: similarity exactly 0.96 classifies as Relative, and
similarity 0.9599 also classifies as Relative (the code compares the
rounded percentage with 96).  The 0.96 boundary value is realizable:
`recR75` scores exactly 24/25 against the 75-letter query and is reported
as a Relative candidate by `find_with_relatives`. -/
theorem relative_tier_boundary_amended :
    relativeTier (24 / 25) = true ∧ relativeTier (9599 / 10000) = true ∧
    needleman_wunsch_similarity seqA75 (seqR75.take 2000) 3 (-1) (-2) = 24 / 25 ∧
    (find_with_relatives seqA75 [recE75, recR75]).1 = .found recE75 100 [recR75] :=
  ⟨by decide, by decide, sim_seqR75, by decide⟩

unseal Rat.add Rat.sub Rat.mul Rat.inv Rat.ofScientific in
/-- C3 counterexample: a record at similarity exactly 1.0 is not counted
in only one tier.  With two distinct exact copies of the query in the
population, the later one becomes the primary match and the earlier one -
whose similarity is exactly 1.0 - is reported among the Relative
candidates (it survives the national-id filter). -/
theorem relatives_overlap_counterexample :
    needleman_wunsch_similarity seqAC (['A', 'C'].take 2000) 3 (-1) (-2) = 1 ∧
    (find_with_relatives seqAC [recAC1, recAC2]).1 = .found recAC2 100 [recAC1] := by
  decide

/-- C3 amended: a scored record can match both tiers (a record at 1.0 is
counted Exact and also collected as a Relative candidate); when an Exact
primary match exists, the only removal from the Relative candidate list is
of candidates sharing the primary match's `national_id`.  Consequently
every reported Relative candidate passes the Relative-tier test and has a
`national_id` different from the primary match's. -/
theorem relatives_overlap_amended :
    (∀ (q : List Char) (pop : List Record) (m : Record) (p : Int) (rels : List Record),
        (find_with_relatives q pop).1 = .found m p rels →
        rels = (missingScan q pop).relatives.filter
          (fun c => c.national_id != m.national_id)) ∧
    (∀ (q : List Char) (pop : List Record) (m : Record) (p : Int) (rels : List Record)
        (c : Record),
        (find_with_relatives q pop).1 = .found m p rels → c ∈ rels →
        (∃ d, c.dna = some d ∧
          relativeTier (needleman_wunsch_similarity q (d.take 2000) 3 (-1) (-2)) = true) ∧
        c.national_id ≠ m.national_id) := by
  constructor
  · intro q pop m p rels h
    exact (find_with_relatives_found q pop m p rels h).2
  · intro q pop m p rels c h hc
    rw [(find_with_relatives_found q pop m p rels h).2] at hc
    have hmem := List.mem_filter.mp hc
    refine ⟨missingScan_relatives_inv q pop c hmem.1, ?_⟩
    simpa [bne_iff_ne] using hmem.2

unseal Rat.add Rat.sub Rat.mul Rat.inv Rat.ofScientific in
/-- Witness for the amended C3 theorem: in the two-exact-copies
population the surviving Relative candidate passes the Relative test and
differs from the primary match in `national_id`. -/
theorem relatives_overlap_amended_witness :
    (∃ d, recAC1.dna = some d ∧
      relativeTier (needleman_wunsch_similarity seqAC (d.take 2000) 3 (-1) (-2)) = true) ∧
    recAC1.national_id ≠ recAC2.national_id :=
  relatives_overlap_amended.2 seqAC [recAC1, recAC2] recAC2 100 [recAC1] recAC1
    (by decide) (by decide)

/-- C4: `identify` returns the first record (in population order) whose
similarity equals 1 and stops scanning there - records after it are never
scored (the scored counter is the number of DNA-bearing records up to and
including the match) - and a record is only ever reported by `identify`
under strict equality of the similarity with 1. -/
theorem identify_first_exact_and_strict :
    (∀ (q : List Char) (pre post : List Record) (r : Record) (d : List Char),
        r.dna = some d →
        needleman_wunsch_similarity q (d.take 2000) 3 (-1) (-2) = similarity_threshold →
        (∀ e ∈ pre, ∀ d2, e.dna = some d2 →
          needleman_wunsch_similarity q (d2.take 2000) 3 (-1) (-2) ≠ similarity_threshold) →
        identify q "all" (pre ++ r :: post) = (.matched r 100, dnaCount pre + 1)) ∧
    (∀ (q : List Char) (st : String) (pop : List Record) (r : Record) (p : Int),
        (identify q st pop).1 = .matched r p →
        ∃ d, r.dna = some d ∧
          needleman_wunsch_similarity q (d.take 2000) 3 (-1) (-2) = similarity_threshold) := by
  constructor
  · intro q pre post r d hd hs hpre
    unfold identify
    rw [if_pos rfl, identifyScan_exact_first q r d hd hs pre post hpre]
    simp [identifyAssemble]
  · intro q st pop r p h
    unfold identify at h
    split_ifs at h
    · exact identifyScan_info_inv q pop r (identifyAssemble_matched _ r p h)
    · exact identifyScan_info_inv q _ r (identifyAssemble_matched _ r p h)

unseal Rat.add Rat.sub Rat.mul Rat.inv Rat.ofScientific in
/-- Witness for C4: with two non-matching records before the first exact
copy and another exact copy after it, `identify` returns the first exact
copy and scores exactly two records (the DNA-less record is skipped, the
trailing exact copy is never reached). -/
theorem identify_first_exact_witness :
    identify seqAC "all" ([recNoDna, recGG] ++ recAC1 :: [recAC2])
      = (.matched recAC1 100, dnaCount [recNoDna, recGG] + 1) :=
  identify_first_exact_and_strict.1 seqAC [recNoDna, recGG] [recAC2] recAC1 ['A', 'C']
    rfl (by decide) (by decide)

/-- C5: whenever either input sequence is empty - both empty, or exactly
one empty - the scorer returns similarity 0 (pairwise2 returns no
alignments in that case), for any scoring parameters. -/
theorem similarity_empty_zero (seq1 seq2 : List Char) (mS mP gP : Int)
    (h : seq1 = [] ∨ seq2 = []) :
    needleman_wunsch_similarity seq1 seq2 mS mP gP = 0 := by
  unfold needleman_wunsch_similarity
  rw [if_pos h]

/-- Witness for C5 at the three empty-input shapes. -/
theorem similarity_empty_zero_witness :
    needleman_wunsch_similarity [] [] 3 (-1) (-2) = 0 ∧
    needleman_wunsch_similarity [] ['A'] 3 (-1) (-2) = 0 ∧
    needleman_wunsch_similarity ['A'] [] 3 (-1) (-2) = 0 :=
  ⟨similarity_empty_zero [] [] 3 (-1) (-2) (Or.inl rfl),
    similarity_empty_zero [] ['A'] 3 (-1) (-2) (Or.inl rfl),
    similarity_empty_zero ['A'] [] 3 (-1) (-2) (Or.inr rfl)⟩

/-- C6: when no record of the population reaches the Exact tier, the
`/missing` search reports the no-match outcome, which carries no Relative
candidates - regardless of how many records pass the Relative threshold. -/
theorem no_exact_no_relatives (q : List Char) (pop : List Record)
    (h : ∀ e ∈ pop, ∀ d, e.dna = some d →
      exactTier (needleman_wunsch_similarity q (d.take 2000) 3 (-1) (-2)) = false) :
    (find_with_relatives q pop).1 = .noMatch := by
  have hm := missingScan_main_none q pop h
  unfold find_with_relatives
  simp only [hm]

set_option maxRecDepth 20000 in
unseal Rat.add Rat.sub Rat.mul Rat.inv Rat.ofScientific in
/-- Witness for C6: a population whose single DNA-bearing record scores
percentage 96 (Relative tier) but not Exact still yields the no-match
outcome. -/
theorem no_exact_no_relatives_witness :
    (find_with_relatives seqA30 [recR30, recNoDna]).1 = .noMatch ∧
    relativeTier (needleman_wunsch_similarity seqA30 (seqR30.take 2000) 3 (-1) (-2))
      = true :=
  ⟨no_exact_no_relatives seqA30 [recR30, recNoDna] (by decide), by decide⟩

/-- C7: `identify` rejects the status filter exactly when it is neither
`'all'` nor one of the four `valid_statuses`, and in that case it scores
no record at all (the scorer-invocation counter is 0). -/
theorem identify_invalid_filter (q : List Char) (selected_status : String)
    (pop : List Record) :
    ((identify q selected_status pop).1 = .invalidStatus ↔
      selected_status ≠ "all" ∧ selected_status ∉ valid_statuses) ∧
    (selected_status ≠ "all" ∧ selected_status ∉ valid_statuses →
      identify q selected_status pop = (.invalidStatus, 0)) := by
  unfold identify
  by_cases h1 : selected_status = "all"
  · subst h1
    rw [if_pos rfl]
    exact ⟨⟨fun hc => absurd hc (identifyAssemble_ne_invalid _),
      fun hc => absurd rfl hc.1⟩, fun hc => absurd rfl hc.1⟩
  · by_cases h2 : selected_status ∈ valid_statuses
    · rw [if_neg h1, if_pos h2]
      exact ⟨⟨fun hc => absurd hc (identifyAssemble_ne_invalid _),
        fun hc => absurd h2 hc.2⟩, fun hc => absurd h2 hc.2⟩
    · rw [if_neg h1, if_neg h2]
      exact ⟨⟨fun _ => ⟨h1, h2⟩, fun _ => rfl⟩, fun _ => rfl⟩

/-- Witness for C7 at the unrecognized status string. -/
theorem identify_invalid_filter_witness :
    identify ['A'] "unknown_status" [recAC1] = (.invalidStatus, 0) :=
  (identify_invalid_filter ['A'] "unknown_status" [recAC1]).2 ⟨by decide, by decide⟩

/-- C8: aligning a non-empty sequence against itself with the default
parameters yields similarity exactly 1; for the empty sequence the result
is 0 by the empty-input convention. -/
theorem self_similarity (A : List Char) :
    (A ≠ [] → needleman_wunsch_similarity A A 3 (-1) (-2) = 1) ∧
    (A = [] → needleman_wunsch_similarity A A 3 (-1) (-2) = 0) := by
  constructor
  · exact sim_self A
  · intro h
    unfold needleman_wunsch_similarity
    rw [if_pos (Or.inl h)]

/-- Witness for C8 on a concrete non-empty sequence and on the empty one. -/
theorem self_similarity_witness :
    needleman_wunsch_similarity ['A', 'C'] ['A', 'C'] 3 (-1) (-2) = 1 ∧
    needleman_wunsch_similarity [] [] 3 (-1) (-2) = 0 :=
  ⟨(self_similarity ['A', 'C']).1 (by decide), (self_similarity []).2 rfl⟩

/-- C9: the raw global-alignment score is symmetric in its two sequence
arguments, for every choice of scoring parameters. -/
theorem raw_score_symmetric (A B : List Char) (mS mP gP : Int) :
    globalms_score mS mP gP A B = globalms_score mS mP gP B A := by
  rw [globalms_score_eq_nwMatrix, globalms_score_eq_nwMatrix]
  exact nwMatrix_symm mS mP gP A B (A.length + B.length) A.length B.length le_rfl

/-- C10: in the `/missing` scan the `break` is commented out, so scanning
always continues to the end of the population (the scored count equals the
number of DNA-bearing records), and each Exact-tier record overwrites the
recorded primary match: whatever lies before it, the last Exact-tier
record in population order is the reported primary match. -/
theorem last_exact_overwrites (q : List Char) (pre post : List Record) (r : Record)
    (d : List Char) (hd : r.dna = some d)
    (hx : exactTier (needleman_wunsch_similarity q (d.take 2000) 3 (-1) (-2)) = true)
    (hpost : ∀ e ∈ post, ∀ d2, e.dna = some d2 →
      exactTier (needleman_wunsch_similarity q (d2.take 2000) 3 (-1) (-2)) = false) :
    mainOf (find_with_relatives q (pre ++ r :: post)).1 = some (r, 100) ∧
    (find_with_relatives q (pre ++ r :: post)).2 = dnaCount (pre ++ r :: post) := by
  have hnone := missingScan_main_none q post hpost
  have hperc := exactTier_percentage _ hx
  have h1 : (missingScan q (r :: post)).main = some (r, 100) := by
    simp [missingScan, hd, hx, hnone, hperc]
  have h2 := missingScan_main_append q (r, 100) pre (r :: post) h1
  exact ⟨by rw [find_with_relatives_main]; exact h2, find_with_relatives_scored q _⟩

unseal Rat.add Rat.sub Rat.mul Rat.inv Rat.ofScientific in
/-- Witness for C10: with an exact copy before it, the later exact copy is
the reported primary match, and all three DNA-bearing records are scored. -/
theorem last_exact_overwrites_witness :
    mainOf (find_with_relatives seqAC ([recAC1] ++ recAC2 :: [recGG])).1
      = some (recAC2, 100) ∧
    (find_with_relatives seqAC ([recAC1] ++ recAC2 :: [recGG])).2
      = dnaCount ([recAC1] ++ recAC2 :: [recGG]) :=
  last_exact_overwrites seqAC [recAC1] [recGG] recAC2 ['A', 'C'] rfl (by decide) (by decide)
